import Mathlib

/-!
Formal model of the deterministic core of the LLM-Email-Attachment-Evaluator
pipeline (`src/classify_attachments.py` and `src/evaluate.py`), together with
proofs of the behavioural properties stated in the specification.

Modelling conventions:

* Attachment ids are Python strings compared and sorted lexicographically;
  they are modelled by an arbitrary linearly ordered type `α` with decidable
  equality.  Nothing in the repair / evaluation logic inspects the string
  structure of an id, so this is a faithful generalisation.
* A Python `set` is modelled by a duplicate-free list; `set(l)` keeps the
  first occurrence of each element (`List.dedup`).  The hash-dependent
  iteration order of a Python set only ever reaches the observable output
  through `sorted(...)`, which forgets list order, so any deterministic
  duplicate-free representative is a faithful model.
* The Python `sorted` builtin yields the unique sorted permutation; it is
  modelled by `List.insertionSort (· ≤ ·)`.
-/

namespace AttachmentEval

variable {α : Type} [LinearOrder α]

/-- The Python `sorted(...)` builtin on a list over a linearly ordered id type. -/
def pySorted (l : List α) : List α := l.insertionSort (· ≤ ·)

/-- The two-key dictionary `{"relevant": [...], "irrelevant": [...]}` that
`parse_llm_response` and `classify_attachments` return
(src/classify_attachments.py). -/
structure Dict (α : Type) where
  relevant : List α
  irrelevant : List α
deriving DecidableEq, Repr

/-- The validation / repair stage of `parse_llm_response`
(src/classify_attachments.py, lines 228-270): it receives the two raw
candidate lists read from the JSON answer of the model plus the universe
`attachment_filenames`, and returns the repaired partition.

Correspondence with the Python source, line by line:

* `relevant_set = set(relevant)` / `irrelevant_set = set(irrelevant)` become
  `List.dedup`.
* The duplicate-collapse branch (`if len(relevant) != len(relevant_set):
  relevant = list(relevant_set)`) leaves the list equal (as a multiset) to
  `relevant.dedup` in both branches: when duplicates exist Python replaces
  the list by the elements of the set, and when none exist the list already is
  duplicate-free, so it is rendered directly as `relevant0.dedup`; likewise
  for `irrelevant`.
* The overlap branch (`overlap = relevant_set & irrelevant_set; if overlap:
  irrelevant_set = irrelevant_set - overlap; irrelevant =
  list(irrelevant_set)`) is rendered as a filter dropping elements of
  `relevant_set`; when the overlap is empty the filter is the identity,
  matching the untaken branch.
* The universe filters, the `missing = all_attachments - all_classified`
  default-to-excluded step (`irrelevant.extend(list(missing))`), and the
  final `sorted(...)` calls are rendered verbatim. -/
def validate_classification (relevant0 irrelevant0 : List α)
    (attachment_filenames : List α) : Dict α :=
  let relevant_set := relevant0.dedup
  let irrelevant_set := irrelevant0.dedup
  let relevant := relevant_set
  let irrelevant := irrelevant_set.filter (fun a => decide (a ∉ relevant_set))
  let all_attachments := attachment_filenames.dedup
  let relevant2 := relevant.filter (fun a => decide (a ∈ all_attachments))
  let irrelevant2 := irrelevant.filter (fun a => decide (a ∈ all_attachments))
  let missing := all_attachments.filter
    (fun a => decide (¬ (a ∈ relevant2 ∨ a ∈ irrelevant2)))
  ⟨pySorted relevant2, pySorted (irrelevant2 ++ missing)⟩

theorem mem_validate_relevant {rel irr u : List α} {x : α} :
    x ∈ (validate_classification rel irr u).relevant ↔ x ∈ rel ∧ x ∈ u := by
  simp [validate_classification, pySorted, List.mem_insertionSort,
    List.mem_filter, List.mem_dedup]

theorem mem_validate_irrelevant {rel irr u : List α} {x : α} :
    x ∈ (validate_classification rel irr u).irrelevant ↔ x ∈ u ∧ x ∉ rel := by
  simp only [validate_classification, pySorted, List.mem_insertionSort,
    List.mem_append, List.mem_filter, List.mem_dedup, decide_eq_true_eq]
  constructor
  · rintro (⟨⟨hirr, hnrel⟩, hu⟩ | ⟨hu, hmiss⟩)
    · exact ⟨hu, hnrel⟩
    · refine ⟨hu, fun hrel => hmiss ?_⟩
      exact Or.inl ⟨hrel, hu⟩
  · rintro ⟨hu, hnrel⟩
    by_cases hirr : x ∈ irr
    · exact Or.inl ⟨⟨hirr, hnrel⟩, hu⟩
    · refine Or.inr ⟨hu, ?_⟩
      rintro (⟨hrel, -⟩ | ⟨⟨hirr2, -⟩, -⟩)
      · exact hnrel hrel
      · exact hirr hirr2

theorem nodup_validate_relevant {rel irr u : List α} :
    (validate_classification rel irr u).relevant.Nodup := by
  have h : (rel.dedup.filter
      (fun a => decide (a ∈ u.dedup))).Nodup := (List.nodup_dedup rel).filter _
  simpa [validate_classification, pySorted] using
    ((List.perm_insertionSort (α := α) (· ≤ ·) _).nodup_iff).mpr h

theorem nodup_validate_irrelevant {rel irr u : List α} :
    (validate_classification rel irr u).irrelevant.Nodup := by
  simp only [validate_classification, pySorted]
  refine ((List.perm_insertionSort (α := α) (· ≤ ·) _).nodup_iff).mpr ?_
  refine List.Nodup.append ?_ ?_ ?_
  · exact ((List.nodup_dedup irr).filter _).filter _
  · exact (List.nodup_dedup u).filter _
  · intro x hx hy
    simp only [List.mem_filter, decide_eq_true_eq] at hx hy
    exact hy.2 (Or.inr hx)

theorem dict_eq_of_fields {d e : Dict α} (h1 : d.relevant = e.relevant)
    (h2 : d.irrelevant = e.irrelevant) : d = e := by
  cases d
  cases e
  simp_all

theorem sorted_validate_relevant {rel irr u : List α} :
    (validate_classification rel irr u).relevant.Sorted (· ≤ ·) := by
  simp only [validate_classification, pySorted]
  exact List.sorted_insertionSort _ _

theorem sorted_validate_irrelevant {rel irr u : List α} :
    (validate_classification rel irr u).irrelevant.Sorted (· ≤ ·) := by
  simp only [validate_classification, pySorted]
  exact List.sorted_insertionSort _ _

/-- Claim C1: for every pair of raw candidate lists (relevant, irrelevant)
and every duplicate-free universe of attachment ids, the repair stage of
`parse_llm_response` returns a pair of collections whose underlying sets are
disjoint and whose union equals exactly the universe, regardless of
duplicates, overlapping ids, ids outside the universe, or ids omitted from
both lists. -/
theorem repair_totality (rel irr u : List α) (hu : u.Nodup) :
    (∀ x, ¬ (x ∈ (validate_classification rel irr u).relevant ∧
             x ∈ (validate_classification rel irr u).irrelevant)) ∧
    (∀ x, (x ∈ (validate_classification rel irr u).relevant ∨
           x ∈ (validate_classification rel irr u).irrelevant) ↔ x ∈ u) := by
  clear hu
  constructor
  · intro x ⟨h1, h2⟩
    rw [mem_validate_relevant] at h1
    rw [mem_validate_irrelevant] at h2
    exact h2.2 h1.1
  · intro x
    rw [mem_validate_relevant, mem_validate_irrelevant]
    constructor
    · rintro (⟨-, hu⟩ | ⟨hu, -⟩) <;> exact hu
    · intro hu
      by_cases hr : x ∈ rel
      · exact Or.inl ⟨hr, hu⟩
      · exact Or.inr ⟨hu, hr⟩

theorem repair_totality_witness :
    ([10, 20, 30] : List ℕ).Nodup ∧
    ((∀ x, ¬ (x ∈ (validate_classification [10, 10, 99] [10, 20] [10, 20, 30]).relevant ∧
              x ∈ (validate_classification [10, 10, 99] [10, 20] [10, 20, 30]).irrelevant)) ∧
     (∀ x, (x ∈ (validate_classification [10, 10, 99] [10, 20] [10, 20, 30]).relevant ∨
            x ∈ (validate_classification [10, 10, 99] [10, 20] [10, 20, 30]).irrelevant) ↔
           x ∈ ([10, 20, 30] : List ℕ))) :=
  ⟨by decide, repair_totality [10, 10, 99] [10, 20] [10, 20, 30] (by decide)⟩

/-- Claim C2: the repair stage is idempotent: applying it to the
(relevant, irrelevant) lists of its own output, with the same universe,
returns that output unchanged. -/
theorem repair_idempotent (rel irr u : List α) :
    validate_classification (validate_classification rel irr u).relevant
      (validate_classification rel irr u).irrelevant u
      = validate_classification rel irr u := by
  have hrel : ∀ x : α,
      x ∈ (validate_classification (validate_classification rel irr u).relevant
        (validate_classification rel irr u).irrelevant u).relevant ↔
      x ∈ (validate_classification rel irr u).relevant := by
    intro x
    simp only [mem_validate_relevant]
    tauto
  have hirr : ∀ x : α,
      x ∈ (validate_classification (validate_classification rel irr u).relevant
        (validate_classification rel irr u).irrelevant u).irrelevant ↔
      x ∈ (validate_classification rel irr u).irrelevant := by
    intro x
    simp only [mem_validate_irrelevant, mem_validate_relevant]
    tauto
  have e1 : (validate_classification (validate_classification rel irr u).relevant
      (validate_classification rel irr u).irrelevant u).relevant
      = (validate_classification rel irr u).relevant :=
    List.eq_of_perm_of_sorted
      ((List.perm_ext_iff_of_nodup nodup_validate_relevant nodup_validate_relevant).mpr hrel)
      sorted_validate_relevant sorted_validate_relevant
  have e2 : (validate_classification (validate_classification rel irr u).relevant
      (validate_classification rel irr u).irrelevant u).irrelevant
      = (validate_classification rel irr u).irrelevant :=
    List.eq_of_perm_of_sorted
      ((List.perm_ext_iff_of_nodup nodup_validate_irrelevant nodup_validate_irrelevant).mpr hirr)
      sorted_validate_irrelevant sorted_validate_irrelevant
  exact dict_eq_of_fields e1 e2

/-- Claim C4: an id of the universe that appears in both raw candidate lists
ends up on the included ("relevant") side of the repaired partition and not
on the excluded ("irrelevant") side. -/
theorem repair_tie_break (rel irr u : List α) (x : α)
    (hrel : x ∈ rel) (hirr : x ∈ irr) (hu : x ∈ u) :
    x ∈ (validate_classification rel irr u).relevant ∧
    x ∉ (validate_classification rel irr u).irrelevant := by
  clear hirr
  refine ⟨mem_validate_relevant.mpr ⟨hrel, hu⟩, fun h => ?_⟩
  exact (mem_validate_irrelevant.mp h).2 hrel

theorem repair_tie_break_witness :
    (5 : ℕ) ∈ [5, 6] ∧ (5 : ℕ) ∈ [5, 7] ∧ (5 : ℕ) ∈ [5, 6, 7] ∧
    (5 ∈ (validate_classification [5, 6] [5, 7] [5, 6, 7]).relevant ∧
     5 ∉ (validate_classification [5, 6] [5, 7] [5, 6, 7]).irrelevant) :=
  ⟨by decide, by decide, by decide,
    repair_tie_break [5, 6] [5, 7] [5, 6, 7] 5 (by decide) (by decide) (by decide)⟩

/-- Claim C5: an id of the universe that appears in neither raw candidate
list is placed on the excluded ("irrelevant") side of the repaired partition
and not on the included side (default-to-excluded). -/
theorem repair_default_to_excluded (rel irr u : List α) (x : α)
    (hu : x ∈ u) (hrel : x ∉ rel) (hirr : x ∉ irr) :
    x ∈ (validate_classification rel irr u).irrelevant ∧
    x ∉ (validate_classification rel irr u).relevant := by
  clear hirr
  refine ⟨mem_validate_irrelevant.mpr ⟨hu, hrel⟩, fun h => ?_⟩
  exact hrel (mem_validate_relevant.mp h).1

theorem repair_default_to_excluded_witness :
    (2 : ℕ) ∈ [1, 2, 3] ∧ (2 : ℕ) ∉ [1] ∧ (2 : ℕ) ∉ ([] : List ℕ) ∧
    (2 ∈ (validate_classification [1] [] [1, 2, 3]).irrelevant ∧
     2 ∉ (validate_classification [1] [] [1, 2, 3]).relevant) :=
  ⟨by decide, by decide, by decide,
    repair_default_to_excluded [1] [] [1, 2, 3] 2 (by decide) (by decide) (by decide)⟩

/-- Index of the first occurrence of a left brace in a character list;
models the starting position of the leftmost possible match of the regular
expression pattern used in `parse_llm_response` (a match starting at some
position requires a left brace there). -/
def firstBrace : List Char → Option Nat
  | [] => none
  | c :: rest =>
    if c = '{' then some 0 else (firstBrace rest).map (· + 1)

/-- Index of the last occurrence of a right brace in a character list;
models the greedy end position of the regular expression pattern used in
`parse_llm_response` (`[\s\S]*` is greedy, so the match extends to the last
right brace of the whole text). -/
def lastClose : List Char → Option Nat
  | [] => none
  | c :: rest =>
    match lastClose rest with
    | some j => some (j + 1)
    | none => if c = '}' then some 0 else none

/-- The JSON-block extraction of `parse_llm_response`
(src/classify_attachments.py, lines 220-223):
`re.search` with the raw pattern \x7b[\s\S]*\x7d over the text.  The pattern matches from
the first left brace of the text, greedily, up to the last right brace of
the text, provided that right brace lies strictly after the left brace;
otherwise there is no match (`none`). -/
def extract_json_block (s : List Char) : Option (List Char) :=
  match firstBrace s, lastClose s with
  | some i, some j =>
    if i < j then some ((s.drop i).take (j - i + 1)) else none
  | some _, none => none
  | none, _ => none

/-- Python `dict.get(key, [])` on the object parsed from the model answer
(src/classify_attachments.py, lines 228-229): the value stored at `key`, or
the empty list when the key is absent. -/
def dictGet (result : List (String × List α)) (key : String) : List α :=
  match result.find? (fun kv => kv.1 == key) with
  | some kv => kv.2
  | none => []

/-- The model of `parse_llm_response` (src/classify_attachments.py, lines
209-270).  `json.loads` belongs to an external library; it is modelled by
the oracle parameter `loads`, which returns the parsed top-level object as
a key/value list (`none` models a raised `json.JSONDecodeError`; the code
only ever reads the two list-valued keys "relevant" and "irrelevant" from
the parsed value).  When the regular-expression search finds no block, the
original text is handed to `json.loads` unchanged, exactly as in the
source.  A `none` result models the exception propagating to the caller. -/
def parse_llm_response (loads : List Char → Option (List (String × List α)))
    (response_text : List Char) (attachment_filenames : List α) : Option (Dict α) :=
  let text :=
    match extract_json_block response_text with
    | some m => m
    | none => response_text
  match loads text with
  | none => none
  | some result =>
    some (validate_classification (dictGet result "relevant")
      (dictGet result "irrelevant") attachment_filenames)

/-- The model of `classify_attachments` (src/classify_attachments.py, lines
273-328).  Building the prompt from `html_body` and performing the HTTP
call are external effects; the outcome of `call_llm_api` on that prompt is
the parameter `call_result`, where `none` models a raised
`requests.exceptions.RequestException` (network/HTTP failure or non-2xx
status).  Every `except` arm of the source returns the same fallback
partition `{"relevant": [], "irrelevant": sorted(attachment_filenames)}`,
so a parse failure (`parse_llm_response` = `none`) and a transport failure
take the same branch here; no exception escapes. -/
def classify_attachments (loads : List Char → Option (List (String × List α)))
    (html_body : String) (attachment_filenames : List α)
    (call_result : Option (List Char)) : Dict α :=
  if attachment_filenames.isEmpty then ⟨[], []⟩
  else
    match call_result with
    | none => ⟨[], pySorted attachment_filenames⟩
    | some response_text =>
      match parse_llm_response loads response_text attachment_filenames with
      | none => ⟨[], pySorted attachment_filenames⟩
      | some result => result

/-- Claim C3: for every html body and non-empty attachment list, if the
model call raises a transport error or the response fails JSON
extraction/parsing, `classify_attachments` does not propagate the exception
(it is a total function of the call outcome) and returns the partition with
empty "relevant" and "irrelevant" equal to the full sorted attachment
universe. -/
theorem classify_error_fallback
    (loads : List Char → Option (List (String × List α)))
    (html_body : String) (attachment_filenames : List α)
    (call_result : Option (List Char))
    (hne : attachment_filenames ≠ [])
    (hfail : call_result = none ∨
      ∃ t, call_result = some t ∧
        parse_llm_response loads t attachment_filenames = none) :
    classify_attachments loads html_body attachment_filenames call_result
      = ⟨[], pySorted attachment_filenames⟩ := by
  have hne2 : attachment_filenames.isEmpty = false := by
    simpa [List.isEmpty_iff] using hne
  rcases hfail with h | ⟨t, ht, hp⟩
  · simp [classify_attachments, hne2, h]
  · simp [classify_attachments, hne2, ht, hp]

theorem classify_error_fallback_witness :
    ([4, 2] : List ℕ) ≠ [] ∧
    ((none : Option (List Char)) = none ∨
      ∃ t, (none : Option (List Char)) = some t ∧
        parse_llm_response (fun _ => none) t ([4, 2] : List ℕ) = none) ∧
    classify_attachments (fun _ => none) "<p>hi</p>" ([4, 2] : List ℕ) none
      = ⟨[], pySorted [4, 2]⟩ :=
  ⟨by decide, Or.inl rfl,
    classify_error_fallback (fun _ => none) "<p>hi</p>" [4, 2] none
      (by decide) (Or.inl rfl)⟩

/-- Claim C10: over a duplicate-free universe, the fallback partition that
`classify_attachments` returns on failure equals the result of running the
repair stage on the empty answer (both raw lists empty) over the same
universe: the two code paths produce the same partition. -/
theorem fallback_eq_repair_of_empty_answer
    (loads : List Char → Option (List (String × List α)))
    (html_body : String) (u : List α) (hu : u.Nodup) (hne : u ≠ []) :
    classify_attachments loads html_body u none
      = validate_classification [] [] u := by
  have hne2 : u.isEmpty = false := by simpa [List.isEmpty_iff] using hne
  have hrel : (validate_classification ([] : List α) [] u).relevant = [] := by
    rw [List.eq_nil_iff_forall_not_mem]
    intro x hx
    simpa using (mem_validate_relevant.mp hx).1
  have hirr : (validate_classification ([] : List α) [] u).irrelevant
      = pySorted u := by
    refine List.eq_of_perm_of_sorted
      ((List.perm_ext_iff_of_nodup nodup_validate_irrelevant ?_).mpr ?_)
      sorted_validate_irrelevant (List.sorted_insertionSort _ _)
    · exact ((List.perm_insertionSort (α := α) (· ≤ ·) u).nodup_iff).mpr hu
    · intro x
      rw [mem_validate_irrelevant]
      simp [pySorted, List.mem_insertionSort]
  refine Eq.trans ?_
    (@dict_eq_of_fields α _ _ ⟨[], pySorted u⟩ hrel hirr).symm
  simp [classify_attachments, hne2]

theorem fallback_eq_repair_of_empty_answer_witness :
    ([3, 1, 2] : List ℕ).Nodup ∧ ([3, 1, 2] : List ℕ) ≠ [] ∧
    classify_attachments (fun _ => none) "" ([3, 1, 2] : List ℕ) none
      = validate_classification [] [] [3, 1, 2] :=
  ⟨by decide, by decide,
    fallback_eq_repair_of_empty_answer (fun _ => none) "" [3, 1, 2]
      (by decide) (by decide)⟩

/-- The record returned by `evaluate_classification` (src/evaluate.py, lines
11-66): the four confusion counts, the four derived metrics, and the two
sorted difference lists.  Python float arithmetic is modelled by exact
rational arithmetic; the properties proved below only concern the
zero-denominator guards and ratios of small integers, where the two agree. -/
structure EvalResult (α : Type) where
  true_positives : Nat
  true_negatives : Nat
  false_positives : Nat
  false_negatives : Nat
  accuracy : ℚ
  precision : ℚ
  «recall» : ℚ
  f1_score : ℚ
  missing_attachments : List α
  extra_attachments : List α
deriving DecidableEq, Repr

/-- The model of `evaluate_classification` (src/evaluate.py, lines 11-66).
Python set intersections such as `pred_relevant & gt_relevant` are modelled
by filtering one duplicate-free list by membership in the other; set unions
such as `pred_relevant | pred_irrelevant` by deduplicating the appended
lists; set differences by membership filters.  Each guarded ratio mirrors
the conditional expression of the source (`x / y if y > 0 else 0.0`). -/
def evaluate_classification (predicted ground_truth : Dict α) : EvalResult α :=
  let pred_relevant := predicted.relevant.dedup
  let pred_irrelevant := predicted.irrelevant.dedup
  let gt_relevant := ground_truth.relevant.dedup
  let gt_irrelevant := ground_truth.irrelevant.dedup
  let pred_all := (predicted.relevant ++ predicted.irrelevant).dedup
  let gt_all := (ground_truth.relevant ++ ground_truth.irrelevant).dedup
  let tp := (pred_relevant.filter (fun a => decide (a ∈ gt_relevant))).length
  let tn := (pred_irrelevant.filter (fun a => decide (a ∈ gt_irrelevant))).length
  let fp := (pred_relevant.filter (fun a => decide (a ∈ gt_irrelevant))).length
  let fn := (pred_irrelevant.filter (fun a => decide (a ∈ gt_relevant))).length
  let total := tp + tn + fp + fn
  let accuracy : ℚ := if 0 < total then ((tp : ℚ) + tn) / ((total : ℚ)) else 0
  let precision : ℚ := if 0 < tp + fp then (tp : ℚ) / ((tp : ℚ) + fp) else 0
  let «recall» : ℚ := if 0 < tp + fn then (tp : ℚ) / ((tp : ℚ) + fn) else 0
  let f1 : ℚ :=
    if 0 < precision + «recall» then
      2 * (precision * «recall») / (precision + «recall»)
    else 0
  let missing := gt_all.filter (fun a => decide (a ∉ pred_all))
  let extra := pred_all.filter (fun a => decide (a ∉ gt_all))
  ⟨tp, tn, fp, fn, accuracy, precision, «recall», f1,
    pySorted missing, pySorted extra⟩

/-- Claim C7: `evaluate_classification` never raises a division error:
accuracy, precision, recall and f1 are each 0 whenever the corresponding
denominator (tp+tn+fp+fn, tp+fp, tp+fn, precision+recall) is zero; in
particular when both partitions are (∅, ∅) all four metrics equal 0. -/
theorem metrics_no_division_error (p g : Dict α) :
    ((evaluate_classification p g).true_positives
        + (evaluate_classification p g).true_negatives
        + (evaluate_classification p g).false_positives
        + (evaluate_classification p g).false_negatives = 0 →
      (evaluate_classification p g).accuracy = 0) ∧
    ((evaluate_classification p g).true_positives
        + (evaluate_classification p g).false_positives = 0 →
      (evaluate_classification p g).precision = 0) ∧
    ((evaluate_classification p g).true_positives
        + (evaluate_classification p g).false_negatives = 0 →
      (evaluate_classification p g).«recall» = 0) ∧
    ((evaluate_classification p g).precision
        + (evaluate_classification p g).«recall» = 0 →
      (evaluate_classification p g).f1_score = 0) ∧
    ((evaluate_classification (⟨[], []⟩ : Dict α) ⟨[], []⟩).accuracy = 0 ∧
     (evaluate_classification (⟨[], []⟩ : Dict α) ⟨[], []⟩).precision = 0 ∧
     (evaluate_classification (⟨[], []⟩ : Dict α) ⟨[], []⟩).«recall» = 0 ∧
     (evaluate_classification (⟨[], []⟩ : Dict α) ⟨[], []⟩).f1_score = 0) := by
  refine ⟨?_, ?_, ?_, ?_, ?_⟩
  · intro h
    simp only [evaluate_classification] at h ⊢
    rw [if_neg]
    omega
  · intro h
    simp only [evaluate_classification] at h ⊢
    rw [if_neg]
    omega
  · intro h
    simp only [evaluate_classification] at h ⊢
    rw [if_neg]
    omega
  · intro h
    simp only [evaluate_classification] at h ⊢
    rw [if_neg]
    rw [h]
    simp
  · simp [evaluate_classification]

theorem metrics_no_division_error_witness :
    (evaluate_classification (⟨[], []⟩ : Dict ℕ) ⟨[], []⟩).true_positives
        + (evaluate_classification (⟨[], []⟩ : Dict ℕ) ⟨[], []⟩).true_negatives
        + (evaluate_classification (⟨[], []⟩ : Dict ℕ) ⟨[], []⟩).false_positives
        + (evaluate_classification (⟨[], []⟩ : Dict ℕ) ⟨[], []⟩).false_negatives = 0 ∧
    (evaluate_classification (⟨[], []⟩ : Dict ℕ) ⟨[], []⟩).accuracy = 0 :=
  ⟨by decide, (metrics_no_division_error (⟨[], []⟩ : Dict ℕ) ⟨[], []⟩).1 (by decide)⟩

/-- The four confusion-matrix tallies, with "relevant" as positive class. -/
structure ConfusionCounts where
  tp : Nat
  tn : Nat
  fp : Nat
  fn : Nat
deriving DecidableEq, Repr

/-- Element-wise sum of two confusion-count records. -/
def ccAdd (a b : ConfusionCounts) : ConfusionCounts :=
  ⟨a.tp + b.tp, a.tn + b.tn, a.fp + b.fp, a.fn + b.fn⟩

/-- The confusion counts carried by one per-message evaluation record. -/
def countsOf (m : EvalResult α) : ConfusionCounts :=
  ⟨m.true_positives, m.true_negatives, m.false_positives, m.false_negatives⟩

/-- Element-wise sum of the confusion counts of a batch of per-message
evaluation records. -/
def sumCounts (ms : List (EvalResult α)) : ConfusionCounts :=
  ms.foldr (fun m acc => ccAdd (countsOf m) acc) ⟨0, 0, 0, 0⟩

/-- The four overall metric ratios computed once from a single summed
confusion-count record, with the same zero-denominator guards as the
per-message metrics. -/
def metricsFromCounts (c : ConfusionCounts) : ℚ × ℚ × ℚ × ℚ :=
  let total : Nat := c.tp + c.tn + c.fp + c.fn
  let accuracy : ℚ :=
    if 0 < total then ((c.tp : ℚ) + (c.tn : ℚ)) / ((total : ℚ)) else 0
  let precision : ℚ :=
    if 0 < c.tp + c.fp then (c.tp : ℚ) / ((c.tp : ℚ) + (c.fp : ℚ)) else 0
  let «recall» : ℚ :=
    if 0 < c.tp + c.fn then (c.tp : ℚ) / ((c.tp : ℚ) + (c.fn : ℚ)) else 0
  let f1 : ℚ :=
    if 0 < precision + «recall» then
      2 * (precision * «recall») / (precision + «recall»)
    else 0
  (accuracy, precision, «recall», f1)

/-- The overall-metric computation of `main` (src/evaluate.py, lines
138-146): each total is the sum of the corresponding field over all
per-message records in `all_metrics`, and the four overall ratios are then
computed once from those four totals, with the same zero-denominator
guards as the per-message metrics. -/
def overall_metrics (all_metrics : List (EvalResult α)) : ℚ × ℚ × ℚ × ℚ :=
  let total_tp := (all_metrics.map (fun m => m.true_positives)).sum
  let total_tn := (all_metrics.map (fun m => m.true_negatives)).sum
  let total_fp := (all_metrics.map (fun m => m.false_positives)).sum
  let total_fn := (all_metrics.map (fun m => m.false_negatives)).sum
  let total : Nat := total_tp + total_tn + total_fp + total_fn
  let overall_accuracy : ℚ :=
    if 0 < total then
      ((total_tp : ℚ) + (total_tn : ℚ)) / ((total : ℚ))
    else 0
  let overall_precision : ℚ :=
    if 0 < total_tp + total_fp then
      (total_tp : ℚ) / ((total_tp : ℚ) + (total_fp : ℚ))
    else 0
  let overall_recall : ℚ :=
    if 0 < total_tp + total_fn then
      (total_tp : ℚ) / ((total_tp : ℚ) + (total_fn : ℚ))
    else 0
  let overall_f1 : ℚ :=
    if 0 < overall_precision + overall_recall then
      2 * (overall_precision * overall_recall)
        / (overall_precision + overall_recall)
    else 0
  (overall_accuracy, overall_precision, overall_recall, overall_f1)

theorem sumCounts_tp (ms : List (EvalResult α)) :
    (sumCounts ms).tp = (ms.map (fun m => m.true_positives)).sum := by
  induction ms with
  | nil => rfl
  | cons m rest ih => simp [sumCounts, ccAdd, countsOf, List.sum_cons] at ih ⊢; omega

theorem sumCounts_tn (ms : List (EvalResult α)) :
    (sumCounts ms).tn = (ms.map (fun m => m.true_negatives)).sum := by
  induction ms with
  | nil => rfl
  | cons m rest ih => simp [sumCounts, ccAdd, countsOf, List.sum_cons] at ih ⊢; omega

theorem sumCounts_fp (ms : List (EvalResult α)) :
    (sumCounts ms).fp = (ms.map (fun m => m.false_positives)).sum := by
  induction ms with
  | nil => rfl
  | cons m rest ih => simp [sumCounts, ccAdd, countsOf, List.sum_cons] at ih ⊢; omega

theorem sumCounts_fn (ms : List (EvalResult α)) :
    (sumCounts ms).fn = (ms.map (fun m => m.false_negatives)).sum := by
  induction ms with
  | nil => rfl
  | cons m rest ih => simp [sumCounts, ccAdd, countsOf, List.sum_cons] at ih ⊢; omega

/-- Claim C9: for every list of per-message confusion counts, the overall
metrics are computed by first summing tp, tn, fp, fn element-wise across
all messages and then applying the metric ratios once to the summed counts
(not by averaging per-message metrics): summing (tp=1,tn=1,fp=0,fn=1) and
(tp=2,tn=0,fp=1,fn=0) gives tp=3,tn=1,fp=1,fn=1, and on that example the
overall precision 3/4 differs from the average 5/6 of the per-message
precisions.  The two example records are produced by
`evaluate_classification` on partitions realising those counts. -/
theorem aggregate_sums_then_ratios :
    (∀ (ms : List (EvalResult ℕ)),
      overall_metrics ms = metricsFromCounts (sumCounts ms)) ∧
    sumCounts [evaluate_classification (⟨[0], [1, 2]⟩ : Dict ℕ) ⟨[0, 1], [2]⟩,
        evaluate_classification (⟨[3, 4, 5], []⟩ : Dict ℕ) ⟨[3, 4], [5]⟩]
      = ⟨3, 1, 1, 1⟩ ∧
    (overall_metrics [evaluate_classification (⟨[0], [1, 2]⟩ : Dict ℕ) ⟨[0, 1], [2]⟩,
        evaluate_classification (⟨[3, 4, 5], []⟩ : Dict ℕ) ⟨[3, 4], [5]⟩]).2.1
      = 3 / 4 ∧
    ((evaluate_classification (⟨[0], [1, 2]⟩ : Dict ℕ) ⟨[0, 1], [2]⟩).precision
        + (evaluate_classification (⟨[3, 4, 5], []⟩ : Dict ℕ) ⟨[3, 4], [5]⟩).precision)
      / 2 = 5 / 6 ∧
    (3 / 4 : ℚ) ≠ 5 / 6 := by
  refine ⟨?_, by decide, ?_, ?_, by norm_num⟩
  · intro ms
    simp only [overall_metrics, metricsFromCounts, sumCounts_tp, sumCounts_tn,
      sumCounts_fp, sumCounts_fn]
  · simp only [overall_metrics, evaluate_classification]
    norm_num
  · simp only [evaluate_classification]
    norm_num

/-- One part of the depth-first flattening (`msg.walk()`) of the parsed
message tree, restricted to the data the body-extraction loop of
`extract_html_body_and_attachments` reads: the declared content type and
the payload of the part.  `payload` is `none` when `get_payload(decode=True)`
returns `None`; otherwise it holds the payload text after the lossy
lossy utf-8 decode (errors=ignore), which never raises (so the dead
base64 `except` arm of the source is unreachable).  The Python truthiness
test `if payload:` checks the raw bytes; in the model it is the test
`s ≠ ""`, which is observationally equal: nonempty undecodable bytes would
assign `html_body = ""`, leaving `html_body` falsy exactly as if no
assignment had happened. -/
structure MimePart where
  content_type : String
  payload : Option String
deriving DecidableEq, Repr

/-- One iteration of the body-extraction branch of the `msg.walk()` loop in
`extract_html_body_and_attachments` (src/classify_attachments.py, lines
28-42): an HTML part is consulted only while `html_body` is still empty
(`not html_body`), and only a present, nonempty payload is captured. -/
def html_step (html_body : String) (part : MimePart) : String :=
  if part.content_type = "text/html" ∧ html_body = "" then
    match part.payload with
    | some s => if s = "" then html_body else s
    | none => html_body
  else html_body

/-- The body component of `extract_html_body_and_attachments`
(src/classify_attachments.py, lines 23-42): fold the loop body over the
depth-first part list, starting from the empty string. -/
def extract_html_body (parts : List MimePart) : String :=
  parts.foldl html_step ""

/-- The first HTML part of the walk carrying a present, nonempty payload,
if any. -/
def firstNonemptyHtml (parts : List MimePart) : Option String :=
  parts.findSome? (fun part =>
    if part.content_type = "text/html" then
      match part.payload with
      | some s => if s = "" then none else some s
      | none => none
    else none)

theorem extract_html_body_ne_of_start {b : String} (parts : List MimePart)
    (hb : b ≠ "") : parts.foldl html_step b = b := by
  induction parts with
  | nil => rfl
  | cons p rest ih =>
    have hstep : html_step b p = b := by
      simp [html_step, hb]
    rw [List.foldl_cons, hstep]
    exact ih

/-- Counterexample to claim C8 as stated: in a walk whose first HTML-typed
part has an empty payload, a subsequent HTML part is not ignored — it
supplies the returned body, so the body differs from the one extracted
from the truncated walk that stops after the first HTML part. -/
theorem html_first_part_wins_counterexample :
    extract_html_body
        [⟨"text/html", some ""⟩, ⟨"text/html", some "<p>B</p>"⟩]
      ≠ extract_html_body [⟨"text/html", some ""⟩] ∧
    extract_html_body
        [⟨"text/html", some ""⟩, ⟨"text/html", some "<p>B</p>"⟩]
      = "<p>B</p>" := by
  constructor
  · decide
  · rfl

/-- Claim C8, amended: the first HTML-typed part of the depth-first walk
that carries a present, nonempty (after lossy decoding) payload determines
the returned body, every HTML part after it is ignored, and the body
defaults to the empty string when no such part exists.  (As stated the
claim fails: an HTML part whose payload is absent or empty leaves
`html_body` empty, so a later HTML part can still supply the body.) -/
theorem html_first_nonempty_part_wins (parts : List MimePart) :
    extract_html_body parts = (firstNonemptyHtml parts).getD "" := by
  induction parts with
  | nil => rfl
  | cons p rest ih =>
    by_cases hct : p.content_type = "text/html"
    · cases hpay : p.payload with
      | none =>
        rw [extract_html_body, List.foldl_cons] at *
        simp [html_step, firstNonemptyHtml, hct, hpay] at *
        exact ih
      | some s =>
        by_cases hs : s = ""
        · rw [extract_html_body, List.foldl_cons] at *
          simp [html_step, firstNonemptyHtml, hct, hpay, hs] at *
          exact ih
        · rw [extract_html_body, List.foldl_cons]
          have hstep : html_step "" p = s := by
            simp [html_step, hct, hpay, hs]
          rw [hstep, extract_html_body_ne_of_start rest hs]
          simp [firstNonemptyHtml, hct, hpay, hs]
    · rw [extract_html_body, List.foldl_cons] at *
      have hstep : html_step "" p = "" := by
        simp [html_step, hct]
      rw [hstep]
      simp only [firstNonemptyHtml, List.findSome?_cons] at *
      simp [hct]
      exact ih

/-- Modelled from the spec: the scanning loop behind "the first top-level
brace-delimited JSON object found anywhere in the raw answer text".
Starting at an opening brace with depth 0, it tracks brace depth and
returns the consumed characters once the matching top-level closing brace
is reached (`acc` holds the consumed prefix in reverse). -/
def scanTopLevel : List Char → Nat → List Char → Option (List Char)
  | [], _, _ => none
  | c :: rest, depth, acc =>
    if c = '{' then scanTopLevel rest (depth + 1) (c :: acc)
    else if c = '}' then
      if depth = 1 then some ((c :: acc).reverse)
      else if depth = 0 then none
      else scanTopLevel rest (depth - 1) (c :: acc)
    else scanTopLevel rest depth (c :: acc)

/-- Modelled from the spec: "Extract the first top-level brace-delimited
JSON object found anywhere in the raw answer text (model answers may
include leading/trailing commentary despite instructions)" — the block
from the first opening brace of the text to its matching top-level closing
brace. -/
def specFirstTopLevelObject (s : List Char) : Option (List Char) :=
  match firstBrace s with
  | none => none
  | some i => scanTopLevel (s.drop i) 0 []

/-- Counterexample to claim C6 as stated: on an answer whose trailing
commentary contains a second brace-delimited object, the greedy
pattern grabs the span from the first opening brace to the last closing
brace of the whole text, which is not the first top-level brace-delimited
object (and is not even brace-balanced JSON). -/
theorem json_extraction_counterexample :
    specFirstTopLevelObject ['o', 'k', ' ', '{', 'a', '}', ' ', '{', 'b', '}']
      = some ['{', 'a', '}'] ∧
    extract_json_block ['o', 'k', ' ', '{', 'a', '}', ' ', '{', 'b', '}']
      = some ['{', 'a', '}', ' ', '{', 'b', '}'] ∧
    extract_json_block ['o', 'k', ' ', '{', 'a', '}', ' ', '{', 'b', '}']
      ≠ specFirstTopLevelObject ['o', 'k', ' ', '{', 'a', '}', ' ', '{', 'b', '}'] := by
  refine ⟨by decide, by decide, by decide⟩

theorem firstBrace_append_of_not_mem (pre rest : List Char)
    (hpre : '{' ∉ pre) :
    firstBrace (pre ++ '{' :: rest) = some pre.length := by
  induction pre with
  | nil => simp [firstBrace]
  | cons c pre' ih =>
    have hc : c ≠ '{' := by
      intro h
      exact hpre (h ▸ List.mem_cons_self c pre')
    have hpre' : '{' ∉ pre' := fun h => hpre (List.mem_cons_of_mem c h)
    simp [firstBrace, hc, ih hpre']

theorem lastClose_append (l1 l2 : List Char) :
    lastClose (l1 ++ l2) =
      match lastClose l2 with
      | some j => some (l1.length + j)
      | none => lastClose l1 := by
  induction l1 with
  | nil => cases h : lastClose l2 <;> simp [h, lastClose]
  | cons c l1' ih =>
    cases h : lastClose l2 with
    | some j =>
      rw [List.cons_append, lastClose, ih, h]
      simp only [List.length_cons]
      congr 1
      omega
    | none =>
      rw [List.cons_append, lastClose, ih, h]
      rfl

theorem lastClose_eq_none_of_not_mem (l : List Char) (h : '}' ∉ l) :
    lastClose l = none := by
  induction l with
  | nil => rfl
  | cons c l' ih =>
    have hc : c ≠ '}' := by
      intro hcc
      exact h (hcc ▸ List.mem_cons_self c l')
    have h' : '}' ∉ l' := fun hm => h (List.mem_cons_of_mem c hm)
    rw [lastClose, ih h']
    simp [hc]

/-- Claim C6, amended: the answer parsing of `parse_llm_response` extracts
the greedy span from the first opening brace to the last closing brace of
the whole answer text; consequently it recovers a brace-delimited object
exactly when the leading commentary contains no opening brace and the
trailing commentary contains no closing brace — a brace of either kind in
the surrounding commentary shifts the greedy span away from the object —
and, once the extracted text parses, the keys "relevant" and "irrelevant"
default to the empty list when absent.  (As stated the claim fails: with a
second object in the trailing commentary the greedy span is not the first
top-level brace-delimited object; see the counterexample.) -/
theorem json_extraction_greedy (pre mid post : List Char)
    (hpre : '{' ∉ pre) (hpost : '}' ∉ post) :
    extract_json_block (pre ++ ('{' :: mid ++ ['}']) ++ post)
      = some ('{' :: mid ++ ['}']) ∧
    (∀ (result : List (String × List α)) (key : String),
      (∀ kv ∈ result, kv.1 ≠ key) → dictGet result key = []) := by
  constructor
  · have heq : pre ++ ('{' :: mid ++ ['}']) ++ post
        = pre ++ '{' :: (mid ++ '}' :: post) := by
      simp
    rw [heq]
    have hfb : firstBrace (pre ++ '{' :: (mid ++ '}' :: post))
        = some pre.length := firstBrace_append_of_not_mem pre _ hpre
    have hpc : lastClose ('}' :: post) = some 0 := by
      rw [lastClose, lastClose_eq_none_of_not_mem post hpost]
      simp
    have hobj : lastClose ('{' :: (mid ++ '}' :: post))
        = some (mid.length + 1) := by
      rw [← List.cons_append, lastClose_append, hpc]
      simp
    have hlc : lastClose (pre ++ '{' :: (mid ++ '}' :: post))
        = some (pre.length + (mid.length + 1)) := by
      rw [lastClose_append, hobj]
    simp only [extract_json_block, hfb, hlc]
    rw [if_pos (by omega)]
    rw [List.drop_left pre ('{' :: (mid ++ '}' :: post))]
    have heq2 : '{' :: (mid ++ '}' :: post) = ('{' :: mid ++ ['}']) ++ post := by
      simp
    rw [heq2]
    have hlen : ('{' :: mid ++ ['}']).length
        = pre.length + (mid.length + 1) - pre.length + 1 := by
      simp
    rw [List.take_left' hlen]
  · intro result key habs
    rw [dictGet]
    have : result.find? (fun kv => kv.1 == key) = none := by
      rw [List.find?_eq_none]
      intro kv hkv
      simpa using habs kv hkv
    rw [this]

theorem json_extraction_greedy_witness :
    ('{' : Char) ∉ ['n'] ∧ ('}' : Char) ∉ ['t'] ∧
    extract_json_block (['n'] ++ ('{' :: ['a'] ++ ['}']) ++ ['t'])
      = some ('{' :: ['a'] ++ ['}']) ∧
    dictGet [(("other" : String), ([3] : List ℕ))] "relevant" = [] :=
  ⟨by decide, by decide,
    (json_extraction_greedy (α := ℕ) ['n'] ['a'] ['t'] (by decide) (by decide)).1,
    (json_extraction_greedy (α := ℕ) ['n'] ['a'] ['t'] (by decide) (by decide)).2
      [("other", [3])] "relevant" (by decide)⟩

end AttachmentEval
